import Mathlib

/-!
Verification of the MiniRacer JS-callback bridge
(src/src/v8_py_frontend/js_callback_maker.cc).

The development is a shallow embedding of the callback core:

* `RegistryState` embeds the singleton `JSCallbackCallerRegistry`: the map
  `callback_callers_` (a function from identifiers to optional callers,
  mirroring `std::unordered_map` semantics) and the `uint64_t next_id_`
  counter (a `Nat` kept below `2 ^ 64`, with the increment taken modulo
  `2 ^ 64` exactly where the C++ unsigned increment wraps).  The mutex only
  serializes the operations; the embedding represents the serialized history
  as explicit state passing.
* `V8Value` embeds the fragment of v8 values this core inspects: big
  integers, arrays (whose element reads can fail, mirroring an empty
  `MaybeLocal` from `Get`), function objects carrying attached data, and
  everything else.
* `OnCalledStatic` embeds the static invocation entry point; its result is
  the list of host-callback invocations it performs (empty on every silent
  abort path, a singleton when it reaches `DoCallback`).
* Member declarations (field lists) of the classes live in
  js_callback_maker.h, which is not part of the studied fragment; they are
  reconstructed from their uses in the .cc file.  The value-conversion
  facility (`BinaryValueFactory`, binary_value.h) and the host `Callback`
  type (callback.h) are outside the fragment as well and are modelled from
  the spec, as noted on their definitions.
-/

namespace MiniRacer

/-- `2 ^ 64`, the modulus of the C++ `uint64_t` arithmetic. -/
def U64 : Nat := 2 ^ 64

/-- The fragment of v8 values inspected by this core.  An array element of
`none` models `Get(context, i)` producing an empty `MaybeLocal` (an
exception during the read); `fn data` models a function object carrying
attached opaque data; `other` stands for every other v8 value. -/
inductive V8Value : Type where
  | bigint (n : Int)
  | array (elems : List (Option V8Value))
  | fn (data : V8Value)
  | other

/-- Modelled from the spec: the value-conversion facility (binary_value.h is
outside the studied fragment).  Per spec section 6 it converts a managed
value into a native value handle; the handle is modelled as the pair of the
facility instance (an opaque numeric handle) and the converted value. -/
structure BinaryValue where
  factory : Nat
  value : V8Value

/-- Modelled from the spec: `BinaryValueFactory::New(context, value)`
produces the native value handle for a managed value. -/
def BinaryValueFactory.New (factory : Nat) (v : V8Value) : BinaryValue :=
  { factory := factory, value := v }

/-- `JSCallbackCaller` (lines 22-32): a value-conversion facility plus one
host callback, both immutable after construction.  The two collaborators are
opaque to this core and are modelled as numeric handles. -/
structure JSCallbackCaller where
  bv_factory : Nat
  callback : Nat
deriving DecidableEq

/-- One host-callback invocation, the observable effect of
`JSCallbackCaller::DoCallback`: the host callback invoked, the forwarded
callback identifier, and the handle of the converted argument array. -/
structure CallbackEvent where
  callback : Nat
  callback_id : Nat
  args_handle : BinaryValue

/-- `JSCallbackCaller::DoCallback` (lines 27-32): convert the argument array
through the caller's conversion facility, then invoke the host callback with
the callback identifier and the converted handle. -/
def JSCallbackCaller.DoCallback (c : JSCallbackCaller) (callback_id : Nat)
    (args : V8Value) : CallbackEvent :=
  let args_ptr := BinaryValueFactory.New c.bv_factory args
  { callback := c.callback, callback_id := callback_id, args_handle := args_ptr }

/-- The state of the singleton `JSCallbackCallerRegistry` (lines 34-62): the
`callback_callers_` map and the `next_id_` counter. -/
@[ext]
structure RegistryState where
  callback_callers : Nat → Option JSCallbackCaller
  next_id : Nat

/-- The registry state at process start: an empty map and the counter at 0
(the member initializers live in js_callback_maker.h, outside the fragment;
the spec describes the counter as monotonically increasing from process
start). -/
def initialRegistry : RegistryState :=
  { callback_callers := fun _ => none, next_id := 0 }

/-- `JSCallbackCallerRegistry::Register` (lines 38-47): construct a caller,
allocate `next_id_++` (a `uint64_t`, so the increment wraps modulo `2 ^ 64`),
store the caller under the allocated identifier, return the identifier. -/
def RegistryState.Register (s : RegistryState) (bv_factory callback : Nat) :
    Nat × RegistryState :=
  let context_caller : JSCallbackCaller :=
    { bv_factory := bv_factory, callback := callback }
  let callback_caller_id := s.next_id
  (callback_caller_id,
    { callback_callers := fun i =>
        if i = callback_caller_id then some context_caller
        else s.callback_callers i,
      next_id := (s.next_id + 1) % U64 })

/-- `JSCallbackCallerRegistry::Unregister` (lines 49-52): erase the entry
for the identifier (a no-op when absent, as for `std::unordered_map::erase`). -/
def RegistryState.Unregister (s : RegistryState) (callback_caller_id : Nat) :
    RegistryState :=
  { callback_callers := fun i =>
      if i = callback_caller_id then none else s.callback_callers i,
    next_id := s.next_id }

/-- `JSCallbackCallerRegistry::Get(uint64_t)` (lines 54-62): look the
identifier up in the map, returning the stored shared reference or empty.
The method only reads the map; the returned second component is the registry
state after the call. -/
def RegistryState.Get (s : RegistryState) (callback_caller_id : Nat) :
    Option JSCallbackCaller × RegistryState :=
  (s.callback_callers callback_caller_id, s)

/-- `JSCallbackCallerHolder` (lines 64-77): owns the identifier obtained
from `Register` at construction. -/
structure JSCallbackCallerHolder where
  callback_caller_id : Nat

/-- `JSCallbackCallerHolder`'s constructor (lines 64-69): register and keep
the returned identifier. -/
def JSCallbackCallerHolder.construct (bv_factory callback : Nat)
    (s : RegistryState) : JSCallbackCallerHolder × RegistryState :=
  let r := RegistryState.Register s bv_factory callback
  ({ callback_caller_id := r.1 }, r.2)

/-- `JSCallbackCallerHolder`'s destructor (lines 71-73): unregister the held
identifier. -/
def JSCallbackCallerHolder.destruct (h : JSCallbackCallerHolder)
    (s : RegistryState) : RegistryState :=
  RegistryState.Unregister s h.callback_caller_id

/-- `JSCallbackCallerHolder::Get` (lines 75-77). -/
def JSCallbackCallerHolder.Get (h : JSCallbackCallerHolder) : Nat :=
  h.callback_caller_id

/-- `JSCallbackMaker` (lines 79-85): the per-context factory, holding the
context holder, the conversion facility, and one caller holder. -/
structure JSCallbackMaker where
  context_holder : Nat
  bv_factory : Nat
  callback_caller_holder : JSCallbackCallerHolder

/-- `JSCallbackMaker`'s constructor (lines 79-85): constructing the member
`callback_caller_holder_` registers the caller. -/
def JSCallbackMaker.construct (context_holder bv_factory callback : Nat)
    (s : RegistryState) : JSCallbackMaker × RegistryState :=
  let r := JSCallbackCallerHolder.construct bv_factory callback s
  ({ context_holder := context_holder, bv_factory := bv_factory,
     callback_caller_holder := r.1 }, r.2)

/-- `JSCallbackMaker`'s (implicit) destructor: destroying the factory
destroys its member holder, which unregisters. -/
def JSCallbackMaker.destruct (m : JSCallbackMaker) (s : RegistryState) :
    RegistryState :=
  m.callback_caller_holder.destruct s

/-- `v8::BigInt::NewFromUnsigned(isolate, v)`: the argument is a `uint64_t`,
so the constructed big integer holds the value reduced modulo `2 ^ 64`. -/
def BigIntNewFromUnsigned (v : Nat) : V8Value :=
  V8Value.bigint (Int.ofNat (v % U64))

/-- `v8::BigInt::Uint64Value`: the value as an unsigned 64-bit integer, with
wrapping (two's-complement) semantics. -/
def Uint64Value (n : Int) : Nat :=
  (n % ((2 : Int) ^ 64)).toNat

/-- The `lossless` flag of `v8::BigInt::Uint64Value`: true exactly when the
big integer lies in the unsigned 64-bit range. -/
def Uint64Lossless (n : Int) : Bool :=
  decide (0 ≤ n ∧ n < (2 : Int) ^ 64)

/-- The data array attached by `MakeJSCallback` (lines 105-113): a 2-element
array of the caller identifier and the callback identifier, each encoded as
an unsigned big integer. -/
def callbackData (callback_caller_id callback_id : Nat) : V8Value :=
  V8Value.array [some (BigIntNewFromUnsigned callback_caller_id),
    some (BigIntNewFromUnsigned callback_id)]

/-- The result of `MakeJSCallback`: the wrapped function handle on success;
`fatalAbort` embeds `ToLocalChecked()` called on an empty `MaybeLocal`,
which terminates the process. -/
inductive MintResult where
  | ok (val : BinaryValue)
  | fatalAbort

/-- `JSCallbackMaker::MakeJSCallback` (lines 87-120): build the data array,
create the function object backed by `OnCalledStatic` with that data, wrap
it via the conversion facility.  `v8::Function::New` returns a
`MaybeLocal`; `fn_new_ok` is the outcome of that VM operation (it can fail,
e.g. under termination), and on failure the `.ToLocalChecked()` at line 117
aborts the process.  The registry is not touched on any path. -/
def JSCallbackMaker.MakeJSCallback (m : JSCallbackMaker) (callback_id : Nat)
    (fn_new_ok : Bool) (s : RegistryState) : MintResult × RegistryState :=
  let data := callbackData m.callback_caller_holder.Get callback_id
  if fn_new_ok then
    (MintResult.ok (BinaryValueFactory.New m.bv_factory (V8Value.fn data)), s)
  else
    (MintResult.fatalAbort, s)

/-- `v8::FunctionCallbackInfo` as used by `OnCalledStatic`: the attached
data (`info.Data()`), the argument count (`info.Length()`), and the
arguments (`info[i]`). -/
structure FunctionCallbackInfo where
  data : V8Value
  length : Nat
  arg : Nat → V8Value

/-- The argument array built at lines 178-182:
`v8::Array::New(context, info.Length(), callback)` with a callback yielding
`info[idx++]`, so the elements are `info[0], ..., info[Length()-1]` in
order.  The `MaybeLocal` returned by this overload is empty only when the
element callback yields an empty `MaybeLocal`, which `info[idx++]` never
does, so the `.ToLocalChecked()` here always succeeds. -/
def arrayNewFromArgs (info : FunctionCallbackInfo) : V8Value :=
  V8Value.array ((List.range info.length).map (fun idx => some (info.arg idx)))

/-- `JSCallbackMaker::OnCalledStatic` (lines 122-191), as the list of
host-callback invocations it performs.  Each `return;` on a validation
failure is the empty list; the source's negated early-exit conditions are
rendered as positively-phrased `if`/`match` with the abort branch returning
`[]`. -/
def OnCalledStatic (s : RegistryState) (info : FunctionCallbackInfo) :
    List CallbackEvent :=
  match info.data with
  | V8Value.array data_array =>
    if data_array.length = 2 then
      match (data_array[0]?).join with
      | none => []
      | some callback_caller_id_value =>
        match callback_caller_id_value with
        | V8Value.bigint cn =>
          if Uint64Lossless cn then
            let callback_caller_id := Uint64Value cn
            match (data_array[1]?).join with
            | none => []
            | some callback_id_value =>
              match callback_id_value with
              | V8Value.bigint kn =>
                if Uint64Lossless kn then
                  let callback_id := Uint64Value kn
                  let args := arrayNewFromArgs info
                  match (s.Get callback_caller_id).1 with
                  | none => []
                  | some callback_caller =>
                    [callback_caller.DoCallback callback_id args]
                else []
              | _ => []
          else []
        | _ => []
    else []
  | _ => []

/-- Attached data that passes every validation check of `OnCalledStatic`
(the vocabulary of claim C5): exactly a 2-element array, both elements
present and big integers, both values losslessly convertible to unsigned
64-bit integers. -/
def WellFormedCallbackData (v : V8Value) : Prop :=
  ∃ cn kn : Int,
    v = V8Value.array [some (V8Value.bigint cn), some (V8Value.bigint kn)] ∧
      0 ≤ cn ∧ cn < (2 : Int) ^ 64 ∧ 0 ≤ kn ∧ kn < (2 : Int) ^ 64

/-- Mint one function object per listed callback identifier from the same
factory (successive successful `MakeJSCallback` calls), threading the
registry state. -/
def mintAll (m : JSCallbackMaker) (s : RegistryState) :
    List Nat → List MintResult × RegistryState
  | [] => ([], s)
  | k :: ks =>
    let r := m.MakeJSCallback k true s
    let rest := mintAll m r.2 ks
    (r.1 :: rest.1, rest.2)

/-- One registry operation of the interface exercised by claims C3/C4:
a `Register` call (with the caller's two collaborator handles) or an
`Unregister` call. -/
inductive RegOp : Type where
  | reg (bv_factory callback : Nat)
  | unreg (callback_caller_id : Nat)
deriving DecidableEq

/-- Run one registry operation. -/
def applyOp (s : RegistryState) : RegOp → RegistryState
  | RegOp.reg bv cb => (s.Register bv cb).2
  | RegOp.unreg i => s.Unregister i

/-- Run a sequence of registry operations. -/
def applyOps (s : RegistryState) (ops : List RegOp) : RegistryState :=
  ops.foldl applyOp s

/-- The number of `Register` calls in a sequence of registry operations. -/
def countRegs : List RegOp → Nat
  | [] => 0
  | RegOp.reg _ _ :: rest => countRegs rest + 1
  | RegOp.unreg _ :: rest => countRegs rest

/-- The identifier a `Register` call at position `k` of `ops` returns when
the sequence runs from the initial registry: the counter value after the
first `k` operations. -/
def idAt (ops : List RegOp) (k : Nat) : Nat :=
  (applyOps initialRegistry (ops.take k)).next_id

/-- The spec side of claim C3, following its words: identifier `i` is
currently registered with caller `c` when some `Register` call in the
history returned `i`, constructed `c` from its arguments, and no later
`Unregister(i)` occurred. -/
def specCurrentlyRegistered (ops : List RegOp) (i : Nat)
    (c : JSCallbackCaller) : Prop :=
  ∃ k bv cb, ops[k]? = some (RegOp.reg bv cb) ∧
    c = { bv_factory := bv, callback := cb } ∧ idAt ops k = i ∧
    ∀ j, k < j → ops[j]? ≠ some (RegOp.unreg i)

/-- The identifiers returned by a sequence of `Register` calls, one per
listed argument pair, threading the registry state. -/
def registerIds (s : RegistryState) : List (Nat × Nat) → List Nat
  | [] => []
  | p :: rest =>
    (s.Register p.1 p.2).1 :: registerIds (s.Register p.1 p.2).2 rest

/-- An operation sequence exercising the 64-bit wraparound of the registry
counter: one `Register` with caller (5, 5), then `2 ^ 64 - 1` fillers, then
one `Register` with caller (7, 7), which is handed identifier 0 again. -/
def wrapOps : List RegOp :=
  RegOp.reg 5 5 :: (List.replicate (U64 - 1) (RegOp.reg 0 0) ++ [RegOp.reg 7 7])

/-! ### Arithmetic and evaluation helpers -/

lemma U64_pos : 0 < U64 := by unfold U64; positivity

lemma Uint64Value_ofNat (x : Nat) (h : x < U64) : Uint64Value (Int.ofNat x) = x := by
  unfold U64 at h
  unfold Uint64Value
  have h64 : ((2 : Int) ^ 64) = ((2 ^ 64 : Nat) : Int) := by norm_cast
  rw [h64, Int.ofNat_eq_coe]
  omega

lemma Uint64Lossless_ofNat (x : Nat) (h : x < U64) :
    Uint64Lossless (Int.ofNat x) = true := by
  unfold U64 at h
  unfold Uint64Lossless
  have h64 : ((2 : Int) ^ 64) = ((2 ^ 64 : Nat) : Int) := by norm_cast
  rw [h64, Int.ofNat_eq_coe]
  simp only [decide_eq_true_eq]
  omega

lemma Uint64Lossless_bounds (n : Int) (h : Uint64Lossless n = true) :
    0 ≤ n ∧ n < (2 : Int) ^ 64 := by
  unfold Uint64Lossless at h
  exact of_decide_eq_true h

/-- Evaluation of the entry point on well-shaped attached data: the two
identifier checks pass and the call dispatches on the registry lookup. -/
lemma onCalledStatic_decode (s : RegistryState) (info : FunctionCallbackInfo)
    (cn kn : Int)
    (hd : info.data
        = V8Value.array [some (V8Value.bigint cn), some (V8Value.bigint kn)])
    (hc : Uint64Lossless cn = true) (hk : Uint64Lossless kn = true) :
    OnCalledStatic s info =
      match (s.Get (Uint64Value cn)).1 with
      | none => []
      | some caller =>
        [caller.DoCallback (Uint64Value kn) (arrayNewFromArgs info)] := by
  unfold OnCalledStatic
  rw [hd]
  simp [hc, hk, RegistryState.Get, Option.join]

/-- Every validation failure of the entry point returns silently. -/
lemma onCalledStatic_not_wellFormed (s : RegistryState)
    (info : FunctionCallbackInfo) (h : ¬ WellFormedCallbackData info.data) :
    OnCalledStatic s info = [] := by
  unfold OnCalledStatic
  rcases hd : info.data with n | elems | d | _
  · rfl
  · rw [hd] at h
    by_cases hlen : elems.length = 2
    · obtain ⟨e0, e1, rfl⟩ := List.length_eq_two.mp hlen
      rcases e0 with _ | v0
      · simp [Option.join]
      · rcases v0 with cn | es | d0 | _
        · by_cases hcl : Uint64Lossless cn
          · rcases e1 with _ | v1
            · simp [hcl, Option.join]
            · rcases v1 with kn | es1 | d1 | _
              · by_cases hkl : Uint64Lossless kn
                · obtain ⟨hc0, hc1⟩ := Uint64Lossless_bounds cn hcl
                  obtain ⟨hk0, hk1⟩ := Uint64Lossless_bounds kn hkl
                  exact absurd ⟨cn, kn, rfl, hc0, hc1, hk0, hk1⟩ h
                · simp [hcl, hkl, Option.join]
              · simp [hcl, Option.join]
              · simp [hcl, Option.join]
              · simp [hcl, Option.join]
          · simp [hcl, Option.join]
        · simp [Option.join]
        · simp [Option.join]
        · simp [Option.join]
    · simp [hlen]
  · rfl
  · rfl

/-- The entry point performs zero or exactly one host-callback invocation. -/
lemma onCalledStatic_zero_or_one (s : RegistryState)
    (info : FunctionCallbackInfo) :
    OnCalledStatic s info = [] ∨ ∃ ev, OnCalledStatic s info = [ev] := by
  by_cases h : WellFormedCallbackData info.data
  · obtain ⟨cn, kn, hd, hc0, hc1, hk0, hk1⟩ := h
    have hdec := onCalledStatic_decode s info cn kn hd
      (decide_eq_true ⟨hc0, hc1⟩) (decide_eq_true ⟨hk0, hk1⟩)
    rw [hdec]
    rcases (s.Get (Uint64Value cn)).1 with _ | caller
    · exact Or.inl rfl
    · exact Or.inr ⟨_, rfl⟩
  · exact Or.inl (onCalledStatic_not_wellFormed s info h)

/-- Evaluation of the entry point on the exact data array attached by
`MakeJSCallback` for caller identifier `c` and callback identifier `k`. -/
lemma onCalledStatic_callbackData (s : RegistryState)
    (info : FunctionCallbackInfo) (c k : Nat)
    (hd : info.data = callbackData c k) :
    OnCalledStatic s info =
      match (s.Get (c % U64)).1 with
      | none => []
      | some caller =>
        [caller.DoCallback (k % U64) (arrayNewFromArgs info)] := by
  have hdec := onCalledStatic_decode s info (Int.ofNat (c % U64))
    (Int.ofNat (k % U64))
    (by rw [hd]; rfl)
    (Uint64Lossless_ofNat _ (Nat.mod_lt _ U64_pos))
    (Uint64Lossless_ofNat _ (Nat.mod_lt _ U64_pos))
  rw [hdec, Uint64Value_ofNat _ (Nat.mod_lt _ U64_pos),
    Uint64Value_ofNat _ (Nat.mod_lt _ U64_pos)]

lemma mintAll_snd (m : JSCallbackMaker) :
    ∀ (ks : List Nat) (s : RegistryState), (mintAll m s ks).2 = s := by
  intro ks
  induction ks with
  | nil => intro s; rfl
  | cons k ks ih =>
    intro s
    simp only [mintAll]
    rw [ih]
    rfl

/-! ### Claim theorems -/

/-- C1: a function object minted by `MakeJSCallback`, invoked after its
owning factory (and thus its `JSCallbackCallerHolder`) has been destroyed —
the holder's destructor having run `Unregister` on its caller identifier —
never invokes the host callback and raises no error: the registry lookup
returns empty and the entry point returns silently. -/
theorem invoke_after_factory_destroyed_is_silent
    (s0 s : RegistryState) (m : JSCallbackMaker) (k : Nat) (bv : BinaryValue)
    (info : FunctionCallbackInfo)
    (hid : m.callback_caller_holder.callback_caller_id < U64)
    (hmint : (m.MakeJSCallback k true s0).1 = MintResult.ok bv)
    (hdata : bv.value = V8Value.fn info.data) :
    ((JSCallbackMaker.destruct m s).Get
        m.callback_caller_holder.callback_caller_id).1 = none ∧
      OnCalledStatic (JSCallbackMaker.destruct m s) info = [] := by
  have hlookup : ((JSCallbackMaker.destruct m s).Get
      m.callback_caller_holder.callback_caller_id).1 = none := by
    simp [JSCallbackMaker.destruct, JSCallbackCallerHolder.destruct,
      RegistryState.Unregister, RegistryState.Get]
  refine ⟨hlookup, ?_⟩
  have hbv : BinaryValueFactory.New m.bv_factory
      (V8Value.fn (callbackData m.callback_caller_holder.Get k)) = bv := by
    simpa [JSCallbackMaker.MakeJSCallback] using hmint
  have hd : info.data = callbackData m.callback_caller_holder.callback_caller_id k := by
    rw [← hbv] at hdata
    simp only [BinaryValueFactory.New, JSCallbackCallerHolder.Get,
      V8Value.fn.injEq] at hdata
    exact hdata.symm
  rw [onCalledStatic_callbackData _ info _ k hd, Nat.mod_eq_of_lt hid, hlookup]

/-- Witness for C1: a concrete factory destroyed, then its minted function
invoked; the lookup is empty and the invocation is silent. -/
theorem invoke_after_factory_destroyed_is_silent_witness :
    ((JSCallbackMaker.destruct
        { context_holder := 1, bv_factory := 2,
          callback_caller_holder := { callback_caller_id := 0 } }
        initialRegistry).Get 0).1 = none ∧
      OnCalledStatic
        (JSCallbackMaker.destruct
          { context_holder := 1, bv_factory := 2,
            callback_caller_holder := { callback_caller_id := 0 } }
          initialRegistry)
        { data := callbackData 0 3, length := 0, arg := fun _ => V8Value.other }
        = [] :=
  invoke_after_factory_destroyed_is_silent initialRegistry initialRegistry
    { context_holder := 1, bv_factory := 2,
      callback_caller_holder := { callback_caller_id := 0 } } 3
    (BinaryValueFactory.New 2 (V8Value.fn (callbackData 0 3)))
    { data := callbackData 0 3, length := 0, arg := fun _ => V8Value.other }
    (by decide) rfl rfl

/-- C2: a function object minted with callback identifier `k`, invoked with
arguments `[a, b, c]` while its caller is still registered, invokes the host
callback exactly once, with the same identifier `k` and with the converted
argument array `[a, b, c]` (order and count preserved). -/
theorem invoke_while_registered_calls_back_once
    (s0 s : RegistryState) (m : JSCallbackMaker) (k : Nat) (bv : BinaryValue)
    (d : V8Value) (caller : JSCallbackCaller) (a b c : V8Value)
    (hid : m.callback_caller_holder.callback_caller_id < U64) (hk : k < U64)
    (hmint : (m.MakeJSCallback k true s0).1 = MintResult.ok bv)
    (hdata : bv.value = V8Value.fn d)
    (hreg : (s.Get m.callback_caller_holder.callback_caller_id).1 = some caller) :
    OnCalledStatic s
        { data := d, length := 3,
          arg := fun i => [a, b, c].getD i V8Value.other } =
      [{ callback := caller.callback, callback_id := k,
         args_handle := BinaryValueFactory.New caller.bv_factory
           (V8Value.array [some a, some b, some c]) }] := by
  have hbv : BinaryValueFactory.New m.bv_factory
      (V8Value.fn (callbackData m.callback_caller_holder.Get k)) = bv := by
    simpa [JSCallbackMaker.MakeJSCallback] using hmint
  have hd : d = callbackData m.callback_caller_holder.callback_caller_id k := by
    rw [← hbv] at hdata
    simp only [BinaryValueFactory.New, JSCallbackCallerHolder.Get,
      V8Value.fn.injEq] at hdata
    exact hdata.symm
  rw [onCalledStatic_callbackData s _ _ k hd, Nat.mod_eq_of_lt hid,
    Nat.mod_eq_of_lt hk, hreg]
  rfl

/-- Witness for C2: a concrete registered caller receives exactly one
invocation with the minted identifier and the three arguments in order. -/
theorem invoke_while_registered_calls_back_once_witness :
    OnCalledStatic (initialRegistry.Register 10 20).2
        { data := callbackData 0 3, length := 3,
          arg := fun i => [V8Value.bigint 1, V8Value.bigint 2, V8Value.other].getD
            i V8Value.other } =
      [{ callback := 20, callback_id := 3,
         args_handle := BinaryValueFactory.New 10
           (V8Value.array [some (V8Value.bigint 1), some (V8Value.bigint 2),
             some V8Value.other]) }] :=
  invoke_while_registered_calls_back_once initialRegistry
    (initialRegistry.Register 10 20).2
    { context_holder := 1, bv_factory := 2,
      callback_caller_holder := { callback_caller_id := 0 } } 3
    (BinaryValueFactory.New 2 (V8Value.fn (callbackData 0 3)))
    (callbackData 0 3) { bv_factory := 10, callback := 20 }
    (V8Value.bigint 1) (V8Value.bigint 2) V8Value.other
    (by decide) (by decide) rfl rfl rfl

/-- C5: an invocation whose attached data is not exactly a 2-element array,
or whose element 0 or 1 is absent or not a big integer, or whose big-integer
value is not losslessly an unsigned 64-bit integer, aborts silently: no host
callback is invoked and nothing is produced beyond the empty result. -/
theorem malformed_data_aborts_silently (s : RegistryState)
    (info : FunctionCallbackInfo) (h : ¬ WellFormedCallbackData info.data) :
    OnCalledStatic s info = [] :=
  onCalledStatic_not_wellFormed s info h

/-- Witness for C5: invocation with non-array attached data is silent. -/
theorem malformed_data_aborts_silently_witness :
    OnCalledStatic initialRegistry
      { data := V8Value.other, length := 0, arg := fun _ => V8Value.other }
      = [] :=
  malformed_data_aborts_silently initialRegistry
    { data := V8Value.other, length := 0, arg := fun _ => V8Value.other }
    (by rintro ⟨cn, kn, hcon, -⟩; exact nomatch hcon)

/-- C6: unregistering an absent identifier (never registered or already
unregistered) leaves the registry state unchanged and does not fail; in
particular unregistering twice is safe and the second call is a no-op. -/
theorem unregister_absent_is_noop (s : RegistryState) (i : Nat) :
    (s.callback_callers i = none → s.Unregister i = s) ∧
      (s.Unregister i).Unregister i = s.Unregister i := by
  have key : ∀ t : RegistryState, t.callback_callers i = none →
      t.Unregister i = t := by
    intro t h
    refine RegistryState.ext ?_ rfl
    funext j
    by_cases hj : j = i
    · subst hj; simp [RegistryState.Unregister, h]
    · simp [RegistryState.Unregister, hj]
  refine ⟨key s, key _ ?_⟩
  simp [RegistryState.Unregister]

/-- Witness for C6: unregistering identifier 5 from the empty registry is a
no-op, and a second unregister is also a no-op. -/
theorem unregister_absent_is_noop_witness :
    (initialRegistry.Unregister 5 = initialRegistry) ∧
      (initialRegistry.Unregister 5).Unregister 5 =
        initialRegistry.Unregister 5 :=
  ⟨(unregister_absent_is_noop initialRegistry 5).1 rfl,
    (unregister_absent_is_noop initialRegistry 5).2⟩

/-- C7 (amended): no core-logic condition is fatal — the entry point always
returns silently with zero or exactly one host-callback invocation, and
`MakeJSCallback` completes normally whenever the VM creates the function
object.  (As claimed originally the property fails: on VM failure the
checked conversion aborts the process, see the counterexample.) -/
theorem core_logic_never_fatal :
    (∀ (s : RegistryState) (info : FunctionCallbackInfo),
        OnCalledStatic s info = [] ∨ ∃ ev, OnCalledStatic s info = [ev]) ∧
      ∀ (m : JSCallbackMaker) (k : Nat) (s : RegistryState),
        (m.MakeJSCallback k true s).1 =
          MintResult.ok (BinaryValueFactory.New m.bv_factory
            (V8Value.fn (callbackData m.callback_caller_holder.Get k))) :=
  ⟨onCalledStatic_zero_or_one, fun _ _ _ => rfl⟩

/-- C7 counterexample: when the VM fails to create the function object
(empty `MaybeLocal` from `v8::Function::New`), `MakeJSCallback` does not
complete normally or return silently — the `.ToLocalChecked()` at line 117
aborts the process. -/
theorem make_js_callback_fatal_on_vm_failure :
    (JSCallbackMaker.MakeJSCallback
      { context_holder := 0, bv_factory := 0,
        callback_caller_holder := { callback_caller_id := 0 } } 0 false
      initialRegistry).1 = MintResult.fatalAbort := rfl

/-- C8: encoding a 64-bit caller identifier `c` and callback identifier `k`
as unsigned big integers and decoding them with the lossless unsigned
64-bit conversion yields exactly `(c, k)` with the lossless flag true, so an
invocation of a freshly minted, unmodified function never takes a
malformed-data abort branch: it proceeds to the registry lookup and
dispatches on its outcome. -/
theorem minted_identifier_round_trip (s : RegistryState) (c k : Nat)
    (info : FunctionCallbackInfo) (hc : c < U64) (hk : k < U64)
    (hd : info.data = callbackData c k) :
    Uint64Lossless (Int.ofNat c) = true ∧ Uint64Value (Int.ofNat c) = c ∧
      Uint64Lossless (Int.ofNat k) = true ∧ Uint64Value (Int.ofNat k) = k ∧
      OnCalledStatic s info =
        match (s.Get c).1 with
        | none => []
        | some caller => [caller.DoCallback k (arrayNewFromArgs info)] := by
  refine ⟨Uint64Lossless_ofNat c hc, Uint64Value_ofNat c hc,
    Uint64Lossless_ofNat k hk, Uint64Value_ofNat k hk, ?_⟩
  rw [onCalledStatic_callbackData s info c k hd, Nat.mod_eq_of_lt hc,
    Nat.mod_eq_of_lt hk]

/-- Witness for C8 at caller identifier 1 and callback identifier 2. -/
theorem minted_identifier_round_trip_witness :
    Uint64Lossless (Int.ofNat 1) = true ∧ Uint64Value (Int.ofNat 1) = 1 ∧
      Uint64Lossless (Int.ofNat 2) = true ∧ Uint64Value (Int.ofNat 2) = 2 ∧
      OnCalledStatic initialRegistry
          { data := callbackData 1 2, length := 0, arg := fun _ => V8Value.other } =
        match (initialRegistry.Get 1).1 with
        | none => []
        | some caller =>
          [caller.DoCallback 2 (arrayNewFromArgs
            { data := callbackData 1 2, length := 0,
              arg := fun _ => V8Value.other })] :=
  minted_identifier_round_trip initialRegistry 1 2
    { data := callbackData 1 2, length := 0, arg := fun _ => V8Value.other }
    (by decide) (by decide) rfl

/-- C9: `Unregister i` changes at most the entry for `i` and leaves every
other entry and the counter unchanged; `Register` stores exactly one entry
under the returned identifier (the old counter value) and only increments
the counter; the lookup leaves the whole registry state unchanged. -/
theorem registry_ops_frame (s : RegistryState) (i bv cb : Nat) :
    ((s.Unregister i).callback_callers i = none) ∧
      (∀ j, j ≠ i →
        (s.Unregister i).callback_callers j = s.callback_callers j) ∧
      ((s.Unregister i).next_id = s.next_id) ∧
      ((s.Register bv cb).1 = s.next_id) ∧
      ((s.Register bv cb).2.callback_callers s.next_id =
        some { bv_factory := bv, callback := cb }) ∧
      (∀ j, j ≠ s.next_id →
        (s.Register bv cb).2.callback_callers j = s.callback_callers j) ∧
      ((s.Register bv cb).2.next_id = (s.next_id + 1) % U64) ∧
      ((s.Get i).2 = s) := by
  refine ⟨?_, ?_, rfl, rfl, ?_, ?_, rfl, rfl⟩
  · simp [RegistryState.Unregister]
  · intro j hj; simp [RegistryState.Unregister, hj]
  · simp [RegistryState.Register]
  · intro j hj; simp [RegistryState.Register, hj]

/-- Witness for C9 on a registry holding one entry. -/
theorem registry_ops_frame_witness :
    (((initialRegistry.Register 1 2).2.Unregister 0).callback_callers 0
        = none) ∧
      (((initialRegistry.Register 1 2).2.Unregister 0).callback_callers 7 =
        (initialRegistry.Register 1 2).2.callback_callers 7) ∧
      (((initialRegistry.Register 1 2).2.Register 3 4).2.callback_callers
          (initialRegistry.Register 1 2).2.next_id =
        some { bv_factory := 3, callback := 4 }) ∧
      (((initialRegistry.Register 1 2).2.Register 3 4).2.callback_callers 9 =
        (initialRegistry.Register 1 2).2.callback_callers 9) ∧
      (((initialRegistry.Register 1 2).2.Get 0).2 =
        (initialRegistry.Register 1 2).2) := by
  obtain h := registry_ops_frame (initialRegistry.Register 1 2).2 0 3 4
  exact ⟨h.1, h.2.1 7 (by decide), h.2.2.2.2.1, h.2.2.2.2.2.1 9 (by decide),
    h.2.2.2.2.2.2.2⟩

/-- C10: minting callback functions never touches the registry — every
`MakeJSCallback` call leaves the state unchanged, so any number of mints
from one factory does too; the factory's single entry is created exactly
once at construction (leaving all other entries unchanged) and its
destructor is exactly the unregister of its identifier. -/
theorem minting_never_touches_registry (s : RegistryState) (ch bv cb : Nat)
    (ks : List Nat) :
    (∀ (m : JSCallbackMaker) (k : Nat) (b : Bool) (s2 : RegistryState),
        (m.MakeJSCallback k b s2).2 = s2) ∧
      (mintAll (JSCallbackMaker.construct ch bv cb s).1
          (JSCallbackMaker.construct ch bv cb s).2 ks).2 =
        (JSCallbackMaker.construct ch bv cb s).2 ∧
      (JSCallbackMaker.construct ch bv cb s).2.callback_callers
          (JSCallbackMaker.construct ch bv cb
            s).1.callback_caller_holder.callback_caller_id =
        some { bv_factory := bv, callback := cb } ∧
      (∀ j, j ≠ (JSCallbackMaker.construct ch bv cb
            s).1.callback_caller_holder.callback_caller_id →
          (JSCallbackMaker.construct ch bv cb s).2.callback_callers j =
            s.callback_callers j) ∧
      ∀ s2 : RegistryState,
        (JSCallbackMaker.construct ch bv cb s).1.destruct s2 =
          s2.Unregister
            (JSCallbackMaker.construct ch bv cb
              s).1.callback_caller_holder.callback_caller_id := by
  refine ⟨?_, mintAll_snd _ ks _, ?_, ?_, fun s2 => rfl⟩
  · intro m k b s2; cases b <;> rfl
  · simp [JSCallbackMaker.construct, JSCallbackCallerHolder.construct,
      RegistryState.Register]
  · intro j hj
    simp only [JSCallbackMaker.construct, JSCallbackCallerHolder.construct,
      RegistryState.Register] at hj ⊢
    simp [hj]

/-- Witness for C10: two mints from a concrete factory leave the registry
unchanged, and an unrelated identifier is untouched by construction. -/
theorem minting_never_touches_registry_witness :
    (mintAll (JSCallbackMaker.construct 1 2 3 initialRegistry).1
        (JSCallbackMaker.construct 1 2 3 initialRegistry).2 [4, 5]).2 =
      (JSCallbackMaker.construct 1 2 3 initialRegistry).2 ∧
      (JSCallbackMaker.construct 1 2 3 initialRegistry).2.callback_callers 7 =
        initialRegistry.callback_callers 7 := by
  obtain h := minting_never_touches_registry initialRegistry 1 2 3 [4, 5]
  exact ⟨h.2.1, h.2.2.2.1 7 (by decide)⟩

/-! ### Registry operation sequences (claims C3, C4) -/

lemma applyOps_append (s : RegistryState) (l l2 : List RegOp) :
    applyOps s (l ++ l2) = applyOps (applyOps s l) l2 := by
  simp [applyOps, List.foldl_append]

lemma applyOps_singleton (s : RegistryState) (op : RegOp) :
    applyOps s [op] = applyOp s op := rfl

lemma countRegs_append (l l2 : List RegOp) :
    countRegs (l ++ l2) = countRegs l + countRegs l2 := by
  induction l with
  | nil => simp [countRegs]
  | cons op rest ih =>
    cases op with
    | reg bv cb =>
      show countRegs (rest ++ l2) + 1 = countRegs rest + 1 + countRegs l2
      rw [ih]
      omega
    | unreg i =>
      show countRegs (rest ++ l2) = countRegs rest + countRegs l2
      exact ih

lemma applyOps_next_id (ops : List RegOp) :
    (applyOps initialRegistry ops).next_id = countRegs ops % U64 := by
  induction ops using List.reverseRecOn with
  | nil => simp [applyOps, initialRegistry, countRegs]
  | append_singleton l op ih =>
    rw [applyOps_append, applyOps_singleton, countRegs_append]
    cases op with
    | reg bv cb =>
      show ((applyOps initialRegistry l).next_id + 1) % U64 =
        (countRegs l + countRegs [RegOp.reg bv cb]) % U64
      rw [ih, Nat.mod_add_mod]
      rfl
    | unreg i =>
      show (applyOps initialRegistry l).next_id = _
      rw [ih]
      rfl

lemma applyOps_dom_lt :
    ∀ ops : List RegOp, countRegs ops ≤ U64 → ∀ i c,
      (applyOps initialRegistry ops).callback_callers i = some c →
        i < countRegs ops := by
  intro ops
  induction ops using List.reverseRecOn with
  | nil => intro _ i c h; simp [applyOps, initialRegistry] at h
  | append_singleton l op ih =>
    intro hle i c h
    rw [applyOps_append, applyOps_singleton] at h
    rw [countRegs_append] at hle ⊢
    cases op with
    | unreg u =>
      simp only [applyOp, RegistryState.Unregister] at h
      by_cases hi : i = u
      · rw [if_pos hi] at h; cases h
      · rw [if_neg hi] at h
        have hle2 : countRegs l ≤ U64 := by
          have : countRegs [RegOp.unreg u] = 0 := rfl
          omega
        have := ih hle2 i c h
        have h0 : countRegs [RegOp.unreg u] = 0 := rfl
        omega
    | reg bv cb =>
      have h1 : countRegs [RegOp.reg bv cb] = 1 := rfl
      simp only [applyOp, RegistryState.Register] at h
      by_cases hi : i = (applyOps initialRegistry l).next_id
      · have hlt : countRegs l < U64 := by omega
        rw [applyOps_next_id, Nat.mod_eq_of_lt hlt] at hi
        omega
      · rw [if_neg hi] at h
        have := ih (by omega) i c h
        omega

lemma idAt_append (ops : List RegOp) (op : RegOp) (k : Nat)
    (hk : k ≤ ops.length) : idAt (ops ++ [op]) k = idAt ops k := by
  unfold idAt
  rw [List.take_append_eq_append_take, Nat.sub_eq_zero_of_le hk]
  simp

lemma idAt_length (ops : List RegOp) (op : RegOp) :
    idAt (ops ++ [op]) ops.length = (applyOps initialRegistry ops).next_id := by
  unfold idAt
  rw [List.take_left]

lemma getElem?_lt_length {α : Type} {l : List α} {n : Nat} {a : α}
    (h : l[n]? = some a) : n < l.length := by
  rw [List.getElem?_eq_some] at h
  exact h.1

lemma spec_append_unreg (ops : List RegOp) (u i : Nat) (c : JSCallbackCaller) :
    specCurrentlyRegistered (ops ++ [RegOp.unreg u]) i c ↔
      specCurrentlyRegistered ops i c ∧ i ≠ u := by
  constructor
  · rintro ⟨k, bv, cb, hget, hc, hid, hlater⟩
    have hkl : k < ops.length := by
      have hk2 : k < (ops ++ [RegOp.unreg u]).length := getElem?_lt_length hget
      rw [List.length_append, List.length_singleton] at hk2
      by_contra hcon
      push_neg at hcon
      have hkeq : k = ops.length := by omega
      subst hkeq
      rw [List.getElem?_concat_length] at hget
      simp at hget
    have hne : i ≠ u := by
      have hl := hlater ops.length hkl
      rw [List.getElem?_concat_length] at hl
      intro hiu
      exact hl (by rw [hiu])
    refine ⟨⟨k, bv, cb, ?_, hc, ?_, ?_⟩, hne⟩
    · rw [List.getElem?_append_left hkl] at hget; exact hget
    · rw [idAt_append ops _ k hkl.le] at hid; exact hid
    · intro j hj hcon
      have hjl : j < ops.length := getElem?_lt_length hcon
      exact hlater j hj (by rw [List.getElem?_append_left hjl]; exact hcon)
  · rintro ⟨⟨k, bv, cb, hget, hc, hid, hlater⟩, hne⟩
    have hkl : k < ops.length := getElem?_lt_length hget
    refine ⟨k, bv, cb, ?_, hc, ?_, ?_⟩
    · rw [List.getElem?_append_left hkl]; exact hget
    · rw [idAt_append ops _ k hkl.le]; exact hid
    · intro j hj hcon
      rcases Nat.lt_trichotomy j ops.length with hj2 | hj2 | hj2
      · rw [List.getElem?_append_left hj2] at hcon
        exact hlater j hj hcon
      · subst hj2
        rw [List.getElem?_concat_length] at hcon
        simp at hcon
        exact hne hcon.symm
      · have hlen : (ops ++ [RegOp.unreg u]).length ≤ j := by
          rw [List.length_append, List.length_singleton]; omega
        rw [List.getElem?_eq_none hlen] at hcon
        cases hcon

lemma spec_append_reg (ops : List RegOp) (bv cb : Nat) (i : Nat)
    (c : JSCallbackCaller) :
    specCurrentlyRegistered (ops ++ [RegOp.reg bv cb]) i c ↔
      ((i = (applyOps initialRegistry ops).next_id ∧
          c = { bv_factory := bv, callback := cb }) ∨
        specCurrentlyRegistered ops i c) := by
  constructor
  · rintro ⟨k, bv', cb', hget, hc, hid, hlater⟩
    have hk2 : k < ops.length + 1 := by
      have := getElem?_lt_length hget
      rwa [List.length_append, List.length_singleton] at this
    rcases Nat.lt_or_ge k ops.length with hkl | hkl
    · right
      refine ⟨k, bv', cb', ?_, hc, ?_, ?_⟩
      · rw [List.getElem?_append_left hkl] at hget; exact hget
      · rw [idAt_append ops _ k hkl.le] at hid; exact hid
      · intro j hj hcon
        have hjl : j < ops.length := getElem?_lt_length hcon
        exact hlater j hj (by rw [List.getElem?_append_left hjl]; exact hcon)
    · left
      have hkeq : k = ops.length := by omega
      subst hkeq
      rw [List.getElem?_concat_length] at hget
      simp only [Option.some.injEq, RegOp.reg.injEq] at hget
      obtain ⟨hb, hcb⟩ := hget
      subst hb
      subst hcb
      rw [idAt_length] at hid
      exact ⟨hid.symm, hc⟩
  · rintro (⟨hi, hc⟩ | ⟨k, bv', cb', hget, hc, hid, hlater⟩)
    · refine ⟨ops.length, bv, cb,
        List.getElem?_concat_length ops (RegOp.reg bv cb), hc, ?_, ?_⟩
      · rw [idAt_length]; exact hi.symm
      · intro j hj hcon
        have hlen : (ops ++ [RegOp.reg bv cb]).length ≤ j := by
          rw [List.length_append, List.length_singleton]; omega
        rw [List.getElem?_eq_none hlen] at hcon
        cases hcon
    · have hkl : k < ops.length := getElem?_lt_length hget
      refine ⟨k, bv', cb', ?_, hc, ?_, ?_⟩
      · rw [List.getElem?_append_left hkl]; exact hget
      · rw [idAt_append ops _ k hkl.le]; exact hid
      · intro j hj hcon
        rcases Nat.lt_trichotomy j ops.length with hj2 | hj2 | hj2
        · rw [List.getElem?_append_left hj2] at hcon
          exact hlater j hj hcon
        · subst hj2
          rw [List.getElem?_concat_length] at hcon
          simp at hcon
        · have hlen : (ops ++ [RegOp.reg bv cb]).length ≤ j := by
            rw [List.length_append, List.length_singleton]; omega
          rw [List.getElem?_eq_none hlen] at hcon
          cases hcon

lemma lookup_iff_registered_aux :
    ∀ ops : List RegOp, ∀ i : Nat, ∀ c : JSCallbackCaller,
      countRegs ops ≤ U64 →
      ((applyOps initialRegistry ops).callback_callers i = some c ↔
        specCurrentlyRegistered ops i c) := by
  intro ops
  induction ops using List.reverseRecOn with
  | nil =>
    intro i c _
    constructor
    · intro h; simp [applyOps, initialRegistry] at h
    · rintro ⟨k, bv, cb, hget, -, -, -⟩
      simp at hget
  | append_singleton l op ih =>
    intro i c hle
    rw [applyOps_append, applyOps_singleton]
    cases op with
    | unreg u =>
      rw [spec_append_unreg]
      have hle2 : countRegs l ≤ U64 := by
        rw [countRegs_append] at hle
        have h0 : countRegs [RegOp.unreg u] = 0 := rfl
        omega
      show ((applyOps initialRegistry l).Unregister u).callback_callers i
          = some c ↔ _
      by_cases hi : i = u
      · subst hi
        simp [RegistryState.Unregister]
      · simp only [RegistryState.Unregister]
        rw [if_neg hi, ih i c hle2]
        simp [hi]
    | reg bv cb =>
      rw [spec_append_reg]
      have h1 : countRegs [RegOp.reg bv cb] = 1 := rfl
      rw [countRegs_append] at hle
      have hlt : countRegs l < U64 := by omega
      have hnid : (applyOps initialRegistry l).next_id = countRegs l := by
        rw [applyOps_next_id, Nat.mod_eq_of_lt hlt]
      show ((applyOps initialRegistry l).Register bv cb).2.callback_callers i
          = some c ↔ _
      simp only [RegistryState.Register]
      by_cases hi : i = (applyOps initialRegistry l).next_id
      · rw [if_pos hi]
        constructor
        · intro h
          left
          injection h with h2
          exact ⟨hi, h2.symm⟩
        · rintro (⟨-, hc⟩ | hspec)
          · rw [hc]
          · exfalso
            have hmap := (ih i c (by omega)).mpr hspec
            have hdom := applyOps_dom_lt l (by omega) i c hmap
            rw [hnid] at hi
            omega
      · rw [if_neg hi, ih i c (by omega)]
        constructor
        · intro h; right; exact h
        · rintro (⟨hi2, -⟩ | h)
          · exact absurd hi2 hi
          · exact h

/-- C3 (amended): provided the history contains at most `2 ^ 64` Register
calls (so the 64-bit counter never wraps and identifiers are unique), the
lookup of `i` returns a present reference iff `i` is currently registered —
some Register call returned `i` and no later Unregister(i) occurred — and
then it returns exactly the caller stored by that Register call.  Without
the bound the claim fails: after the counter wraps, a later Register call
returns an already-used identifier and overwrites the entry (see the
counterexample). -/
theorem lookup_present_iff_currently_registered (ops : List RegOp)
    (h : countRegs ops ≤ U64) (i : Nat) (c : JSCallbackCaller) :
    ((applyOps initialRegistry ops).Get i).1 = some c ↔
      specCurrentlyRegistered ops i c :=
  lookup_iff_registered_aux ops i c h

/-- Witness for C3's amended theorem on a concrete register/unregister
history. -/
theorem lookup_present_iff_currently_registered_witness :
    (((applyOps initialRegistry [RegOp.reg 1 2, RegOp.unreg 0]).Get 0).1 =
        some { bv_factory := 1, callback := 2 }) ↔
      specCurrentlyRegistered [RegOp.reg 1 2, RegOp.unreg 0] 0
        { bv_factory := 1, callback := 2 } :=
  lookup_present_iff_currently_registered [RegOp.reg 1 2, RegOp.unreg 0]
    (by decide) 0 { bv_factory := 1, callback := 2 }

lemma countRegs_cons_reg (a b : Nat) (l : List RegOp) :
    countRegs (RegOp.reg a b :: l) = countRegs l + 1 := rfl

lemma RegistryState_Get_fst (s : RegistryState) (i : Nat) :
    (s.Get i).1 = s.callback_callers i := rfl

lemma countRegs_replicate_reg (n a b : Nat) :
    countRegs (List.replicate n (RegOp.reg a b)) = n := by
  induction n with
  | zero => rfl
  | succ n ih =>
    show countRegs (List.replicate n (RegOp.reg a b)) + 1 = n + 1
    rw [ih]

lemma wrapOps_lookup :
    (applyOps initialRegistry wrapOps).callback_callers 0 =
      some { bv_factory := 7, callback := 7 } := by
  have hw : wrapOps =
      (RegOp.reg 5 5 :: List.replicate (U64 - 1) (RegOp.reg 0 0)) ++
        [RegOp.reg 7 7] := by
    unfold wrapOps
    rw [List.cons_append]
  rw [hw, applyOps_append, applyOps_singleton]
  have hcnt : countRegs
      (RegOp.reg 5 5 :: List.replicate (U64 - 1) (RegOp.reg 0 0)) = U64 := by
    rw [countRegs_cons_reg, countRegs_replicate_reg]
    have := U64_pos
    omega
  have hnid : (applyOps initialRegistry
      (RegOp.reg 5 5 :: List.replicate (U64 - 1) (RegOp.reg 0 0))).next_id
      = 0 := by
    rw [applyOps_next_id, hcnt, Nat.mod_self]
  show (RegistryState.Register _ 7 7).2.callback_callers 0 = _
  simp only [RegistryState.Register]
  rw [hnid]
  simp

lemma wrapOps_spec :
    specCurrentlyRegistered wrapOps 0 { bv_factory := 5, callback := 5 } := by
  have h0 : wrapOps[0]? = some (RegOp.reg 5 5) := by
    show (RegOp.reg 5 5 ::
      (List.replicate (U64 - 1) (RegOp.reg 0 0) ++ [RegOp.reg 7 7]))[0]? = _
    rw [List.getElem?_cons_zero]
  have hid0 : idAt wrapOps 0 = 0 := by
    unfold idAt
    rw [List.take_zero]
    rfl
  refine ⟨0, 5, 5, h0, rfl, hid0, ?_⟩
  intro j hj hcon
  have hmem : RegOp.unreg 0 ∈ wrapOps := by
    rw [List.getElem?_eq_some] at hcon
    obtain ⟨hlt, hget⟩ := hcon
    rw [← hget]
    exact List.getElem_mem hlt
  simp [wrapOps, List.mem_replicate] at hmem

/-- C3 counterexample: with `2 ^ 64 + 1` Register calls the counter wraps
and identifier 0 is handed out twice.  Caller (5, 5) satisfies the claim's
"currently registered" condition for identifier 0 — its Register call
returned 0 and no Unregister(0) ever occurs — yet the lookup returns the
later caller (7, 7), so the claimed equivalence instance is false. -/
theorem lookup_present_iff_counterexample :
    ¬ ((((applyOps initialRegistry wrapOps).Get 0).1 =
          some { bv_factory := 5, callback := 5 }) ↔
        specCurrentlyRegistered wrapOps 0
          { bv_factory := 5, callback := 5 }) := by
  intro hiff
  have h := hiff.mpr wrapOps_spec
  rw [RegistryState_Get_fst, wrapOps_lookup] at h
  simp at h

lemma registerIds_eq_range' :
    ∀ (cs : List (Nat × Nat)) (s : RegistryState),
      s.next_id + cs.length ≤ U64 →
      registerIds s cs = List.range' s.next_id cs.length := by
  intro cs
  induction cs with
  | nil => intro s _; rfl
  | cons p rest ih =>
    intro s h
    simp only [List.length_cons] at h ⊢
    show (s.Register p.1 p.2).1 :: registerIds (s.Register p.1 p.2).2 rest =
      List.range' s.next_id (rest.length + 1)
    rw [List.range'_succ]
    have hfst : (s.Register p.1 p.2).1 = s.next_id := rfl
    have hnid : (s.Register p.1 p.2).2.next_id = (s.next_id + 1) % U64 := rfl
    have hle2 : (s.Register p.1 p.2).2.next_id + rest.length ≤ U64 := by
      rw [hnid]
      have hm := Nat.mod_le (s.next_id + 1) U64
      omega
    rw [hfst, ih _ hle2]
    rcases Nat.eq_zero_or_pos rest.length with h0 | hpos
    · rw [h0]
      rfl
    · have hmod : (s.next_id + 1) % U64 = s.next_id + 1 :=
        Nat.mod_eq_of_lt (by omega)
      rw [hnid, hmod]

lemma registerIds_getElem? :
    ∀ (cs : List (Nat × Nat)) (s : RegistryState) (k : Nat),
      s.next_id < U64 → k < cs.length →
      (registerIds s cs)[k]? = some ((s.next_id + k) % U64) := by
  intro cs
  induction cs with
  | nil =>
    intro s k _ hk
    exact absurd hk (Nat.not_lt_zero k)
  | cons p rest ih =>
    intro s k hs hk
    show ((s.Register p.1 p.2).1 :: registerIds (s.Register p.1 p.2).2 rest)[k]?
        = some ((s.next_id + k) % U64)
    cases k with
    | zero =>
      rw [List.getElem?_cons_zero]
      have hz : (s.next_id + 0) % U64 = s.next_id := by
        rw [Nat.add_zero, Nat.mod_eq_of_lt hs]
      rw [hz]
      rfl
    | succ k =>
      rw [List.getElem?_cons_succ]
      have hs2 : (s.Register p.1 p.2).2.next_id < U64 := Nat.mod_lt _ U64_pos
      have hk2 : k < rest.length := by
        simp only [List.length_cons] at hk
        omega
      rw [ih _ k hs2 hk2]
      have hnid : (s.Register p.1 p.2).2.next_id = (s.next_id + 1) % U64 := rfl
      rw [hnid, Nat.mod_add_mod]
      have harith : s.next_id + 1 + k = s.next_id + (k + 1) := by omega
      rw [harith]

/-- C4 (amended): for every N ≤ 2 ^ 64 sequential Register calls, the N
returned caller identifiers are strictly increasing, hence no identifier is
ever returned twice within the sequence.  Without the bound the claim
fails: the counter is a `uint64_t` incremented modulo 2 ^ 64, so the
(2 ^ 64 + 1)-th call returns identifier 0 again (see the counterexample). -/
theorem register_ids_strictly_increasing (cs : List (Nat × Nat))
    (h : cs.length ≤ U64) :
    (registerIds initialRegistry cs).Pairwise (· < ·) := by
  have h2 : initialRegistry.next_id + cs.length ≤ U64 := by
    have h0 : initialRegistry.next_id = 0 := rfl
    omega
  rw [registerIds_eq_range' cs initialRegistry h2]
  exact List.pairwise_lt_range' _ _

/-- Witness for C4's amended theorem at two sequential Register calls. -/
theorem register_ids_strictly_increasing_witness :
    (registerIds initialRegistry [(1, 2), (3, 4)]).Pairwise (· < ·) :=
  register_ids_strictly_increasing [(1, 2), (3, 4)] (by decide)

/-- C4 counterexample: among 2 ^ 64 + 1 sequential Register calls, the
first and the (2 ^ 64 + 1)-th both return identifier 0 — an identifier
once returned is returned again by a later Register call, and the sequence
of returned identifiers is not strictly increasing. -/
theorem register_ids_reused_after_wrap :
    (registerIds initialRegistry (List.replicate (U64 + 1) (0, 0)))[0]?
        = some 0 ∧
      (registerIds initialRegistry (List.replicate (U64 + 1) (0, 0)))[U64]?
        = some 0 ∧
      ¬ (registerIds initialRegistry
          (List.replicate (U64 + 1) (0, 0))).Pairwise (· < ·) := by
  have hlen : (List.replicate (U64 + 1) ((0, 0) : Nat × Nat)).length
      = U64 + 1 := List.length_replicate _ _
  have hinit : initialRegistry.next_id = 0 := rfl
  have hi0 : initialRegistry.next_id < U64 := by rw [hinit]; exact U64_pos
  have h0 := registerIds_getElem? (List.replicate (U64 + 1) (0, 0))
    initialRegistry 0 hi0 (by omega)
  have hU := registerIds_getElem? (List.replicate (U64 + 1) (0, 0))
    initialRegistry U64 hi0 (by omega)
  rw [hinit, Nat.zero_add, Nat.zero_mod] at h0
  rw [hinit, Nat.zero_add, Nat.mod_self] at hU
  refine ⟨h0, hU, ?_⟩
  intro hp
  rw [List.pairwise_iff_getElem] at hp
  rw [List.getElem?_eq_some] at h0 hU
  obtain ⟨hl0, hg0⟩ := h0
  obtain ⟨hlU, hgU⟩ := hU
  have hlt := hp 0 U64 hl0 hlU U64_pos
  rw [hg0, hgU] at hlt
  exact Nat.lt_irrefl 0 hlt

end MiniRacer
